import Mathlib

/-!
# Verification of the two-layer-network training examples

The repository trains a two-layer fully-connected ReLU network
(`y_pred = relu(x·w1)·w2`, `loss = sum((y_pred - y)^2)`) in several styles:
a manual numpy backward pass, manual tensor code, autograd, a custom
autograd function (`MyReLU`), and a weight-sharing `DynamicNet`.

The numeric buffers (float arrays) are modelled with exact rationals.
The reverse-mode automatic-differentiation engine itself lives in the
external library, not in the repository's source; following the spec we
model it as a deep-embedded dynamic computation graph with per-operator
backward functions and additive gradient accumulation.  The manual
backward-pass formulas, the `MyReLU.backward` masking rule, the loss, and
the training-loop structure are translated directly from the source.
-/

set_option maxHeartbeats 1000000

namespace AD

/-- Matrices of rationals with explicit dimensions: the model of the
n-dimensional numeric buffers (numpy arrays / torch tensors) used by the
examples. -/
abbrev Mat (r c : Nat) : Type := Matrix (Fin r) (Fin c) ℚ

/-- All-ones matrix.  `onesMat 1 1` is the seed `d(loss)/d(loss) = 1` of a
backward traversal started from a scalar. -/
def onesMat (r c : Nat) : Mat r c := fun _ _ => 1

/-- Elementwise clamp to nonnegative, the forward relu of the examples:
`np.maximum(h, 0)` / `h.clamp(min=0)` / `MyReLU.forward`. -/
def clampMat {r c : Nat} (m : Mat r c) : Mat r c := fun i j => max (m i j) 0

/-- `MyReLU.backward` from the source:
`grad_x = grad_output.clone(); grad_x[x < 0] = 0` — the gradient is zeroed
at entries where the forward input was strictly negative and passed through
unchanged elsewhere.  The manual numpy backward pass uses the same masking
(`grad_h = grad_h_relu.copy(); grad_h[h < 0] = 0`). -/
def reluBackward {r c : Nat} (x g : Mat r c) : Mat r c :=
  fun i j => if x i j < 0 then 0 else g i j

/-- Signature of the leaf tensors of a graph: each leaf variable has a
shape and a `requires_grad` flag. -/
structure Sig (ι : Type) where
  rows : ι → Nat
  cols : ι → Nat
  rg : ι → Bool

/-- An assignment of a concrete matrix value to every leaf variable. -/
def Env {ι : Type} (sg : Sig ι) : Type := ∀ v : ι, Mat (sg.rows v) (sg.cols v)

/-- Modelled from the spec: the dynamic computation graph recorded by the
forward pass.  The autograd engine (graph recording on tensor operations)
is provided by the external torch library and is absent from the source;
the spec describes it as operation nodes holding input references and a
backward function.  Sharing (one tensor consumed by several downstream
operations) is expressed by repeated mention of the same leaf variable.
The operations are the ones the examples use: matrix multiply, transpose,
clamp-to-nonnegative, elementwise subtract/add, broadcast row add (the
bias of a linear layer), elementwise square, and summation to a scalar. -/
inductive Expr {ι : Type} (sg : Sig ι) : Nat → Nat → Type
  | leaf (v : ι) : Expr sg (sg.rows v) (sg.cols v)
  | mm {r k c : Nat} : Expr sg r k → Expr sg k c → Expr sg r c
  | transposeE {r c : Nat} : Expr sg r c → Expr sg c r
  | clamp0 {r c : Nat} : Expr sg r c → Expr sg r c
  | sub {r c : Nat} : Expr sg r c → Expr sg r c → Expr sg r c
  | addE {r c : Nat} : Expr sg r c → Expr sg r c → Expr sg r c
  | addRow {r c : Nat} : Expr sg r c → Expr sg 1 c → Expr sg r c
  | pow2 {r c : Nat} : Expr sg r c → Expr sg r c
  | sumAll {r c : Nat} : Expr sg r c → Expr sg 1 1

/-- Forward evaluation of a graph under an environment of leaf values. -/
def eval {ι : Type} {sg : Sig ι} (env : Env sg) : {r c : Nat} → Expr sg r c → Mat r c
  | _, _, .leaf v => env v
  | _, _, .mm a b => eval env a * eval env b
  | _, _, .transposeE a => (eval env a).transpose
  | _, _, .clamp0 a => clampMat (eval env a)
  | _, _, .sub a b => eval env a - eval env b
  | _, _, .addE a b => eval env a + eval env b
  | _, _, .addRow a b => fun i j => eval env a i j + eval env b 0 j
  | _, _, .pow2 a => fun i j => (eval env a i j) ^ 2
  | _, _, .sumAll a => fun _ _ => ∑ i, ∑ j, eval env a i j

/-- Contribution of one occurrence of leaf `w`, carrying gradient `g`, to
the gradient accumulator of the queried variable `v`: the whole of `g`
when `w` is `v`, and nothing otherwise. -/
def leafContrib {ι : Type} [DecidableEq ι] {sg : Sig ι} (v w : ι)
    (g : Mat (sg.rows w) (sg.cols w)) : Mat (sg.rows v) (sg.cols v) :=
  if h : w = v then h ▸ g else 0

/-- Modelled from the spec: the backward traversal of the graph.  The
engine (library `loss.backward()`) walks operation nodes in reverse
topological order, applies each node's backward function to the gradient
accumulated at its output, and adds the result into each input's gradient
accumulator.  `pullback env v e gout` is the total gradient accumulated
into leaf `v` when gradient `gout` arrives at the output of `e`; additive
accumulation across the several consumers of a shared tensor appears as
the `+` joining the recursive calls.  A leaf whose `requires_grad` flag is
off accumulates nothing.  The per-operator backward functions are the
closed-form ones the source's manual backward pass spells out. -/
def pullback {ι : Type} [DecidableEq ι] {sg : Sig ι} (env : Env sg) (v : ι) :
    {r c : Nat} → Expr sg r c → Mat r c → Mat (sg.rows v) (sg.cols v)
  | _, _, .leaf w, gout => if sg.rg w then leafContrib v w gout else 0
  | _, _, .mm a b, gout =>
      pullback env v a (gout * (eval env b).transpose) + pullback env v b ((eval env a).transpose * gout)
  | _, _, .transposeE a, gout => pullback env v a gout.transpose
  | _, _, .clamp0 a, gout => pullback env v a (reluBackward (eval env a) gout)
  | _, _, .sub a b, gout => pullback env v a gout + pullback env v b (-gout)
  | _, _, .addE a b, gout => pullback env v a gout + pullback env v b gout
  | _, _, .addRow a b, gout =>
      pullback env v a gout + pullback env v b (fun _ j => ∑ i, gout i j)
  | _, _, .pow2 a, gout => pullback env v a (fun i j => gout i j * (2 * eval env a i j))
  | _, _, .sumAll a, gout => pullback env v a (fun _ _ => gout 0 0)

/-- Whether any leaf of the graph has gradient tracking enabled — i.e.
whether the forward pass recorded any operation node at all. -/
def tracksGrad {ι : Type} {sg : Sig ι} : {r c : Nat} → Expr sg r c → Bool
  | _, _, .leaf v => sg.rg v
  | _, _, .mm a b => tracksGrad a || tracksGrad b
  | _, _, .transposeE a => tracksGrad a
  | _, _, .clamp0 a => tracksGrad a
  | _, _, .sub a b => tracksGrad a || tracksGrad b
  | _, _, .addE a b => tracksGrad a || tracksGrad b
  | _, _, .addRow a b => tracksGrad a || tracksGrad b
  | _, _, .pow2 a => tracksGrad a
  | _, _, .sumAll a => tracksGrad a

/-- Modelled from the spec: the validated entry point of backward
traversal (library `Tensor.backward()`).  Traversal is rejected with an
explicit error unless the root is a scalar, and rejected with a distinct
error when gradient tracking was disabled throughout (no recorded graph);
otherwise it seeds the root gradient with 1 and returns the accumulated
gradients of all leaves. -/
def backwardE {ι : Type} [DecidableEq ι] {sg : Sig ι} (env : Env sg) {r c : Nat}
    (e : Expr sg r c) : Except String (∀ w : ι, Mat (sg.rows w) (sg.cols w)) :=
  if r = 1 ∧ c = 1 then
    if tracksGrad e then .ok (fun w => pullback env w e (onesMat r c))
    else .error "backward on a tensor that does not require grad"
  else .error "grad can be implicitly created only for scalar outputs"

/-! ## The two-layer network of the examples -/

/-- The four leaf tensors of the two-layer examples: input `x`, target `y`,
weights `w1`, `w2`. -/
inductive TVar : Type
  | x | y | w1 | w2
deriving DecidableEq

/-- Shapes and `requires_grad` flags from `two_layer_net_autograd`:
`x : N×D`, `y : N×O`, `w1 : D×H`, `w2 : H×O`; only the weights are
created with `requires_grad=True`. -/
def tSig (N D H O : Nat) : Sig TVar where
  rows := fun v => match v with | .x => N | .y => N | .w1 => D | .w2 => H
  cols := fun v => match v with | .x => D | .y => O | .w1 => H | .w2 => O
  rg := fun v => match v with | .x => false | .y => false | .w1 => true | .w2 => true

/-- The forward graph `y_pred = x.mm(w1).clamp(min=0).mm(w2)`. -/
def tNet (N D H O : Nat) : Expr (tSig N D H O) N O :=
  .mm (.clamp0 (.mm (.leaf TVar.x) (.leaf TVar.w1))) (.leaf TVar.w2)

/-- The scalar loss graph `loss = (y_pred - y).pow(2).sum()`. -/
def tLoss (N D H O : Nat) : Expr (tSig N D H O) 1 1 :=
  .sumAll (.pow2 (.sub (tNet N D H O) (.leaf TVar.y)))

/-- Leaf values for the two-layer graph. -/
def tEnv {N D H O : Nat} (X : Mat N D) (Y : Mat N O) (W1 : Mat D H) (W2 : Mat H O) :
    Env (tSig N D H O) :=
  fun v => match v with | .x => X | .y => Y | .w1 => W1 | .w2 => W2

/-- The gradient autograd stores in `w1.grad` after `loss.backward()`. -/
def autoGradW1 {N D H O : Nat} (X : Mat N D) (Y : Mat N O) (W1 : Mat D H) (W2 : Mat H O) :
    Mat D H :=
  pullback (tEnv X Y W1 W2) .w1 (tLoss N D H O) (onesMat 1 1)

/-- The gradient autograd stores in `w2.grad` after `loss.backward()`. -/
def autoGradW2 {N D H O : Nat} (X : Mat N D) (Y : Mat N O) (W1 : Mat D H) (W2 : Mat H O) :
    Mat H O :=
  pullback (tEnv X Y W1 W2) .w2 (tLoss N D H O) (onesMat 1 1)

/-! ### The manual forward and backward pass (`two_layer_net_numpy` /
`two_layer_net_tensor`), translated line by line -/

/-- `h = x.dot(w1)`. -/
def hFor {N D H : Nat} (X : Mat N D) (W1 : Mat D H) : Mat N H := X * W1

/-- `h_relu = np.maximum(h, 0)`. -/
def hReluFor {N D H : Nat} (X : Mat N D) (W1 : Mat D H) : Mat N H := clampMat (hFor X W1)

/-- `y_pred = h_relu.dot(w2)`. -/
def yPredFor {N D H O : Nat} (X : Mat N D) (W1 : Mat D H) (W2 : Mat H O) : Mat N O :=
  hReluFor X W1 * W2

/-- `loss = np.square(y_pred - y).sum()`. -/
def lossVal {N D H O : Nat} (X : Mat N D) (Y : Mat N O) (W1 : Mat D H) (W2 : Mat H O) : ℚ :=
  ∑ i, ∑ j, (yPredFor X W1 W2 i j - Y i j) ^ 2

/-- `grad_y_pred = 2.0 * (y_pred - y)`. -/
def gradYPred {N D H O : Nat} (X : Mat N D) (Y : Mat N O) (W1 : Mat D H) (W2 : Mat H O) :
    Mat N O :=
  (2 : ℚ) • (yPredFor X W1 W2 - Y)

/-- `grad_w2 = h_relu.T.dot(grad_y_pred)`. -/
def manualGradW2 {N D H O : Nat} (X : Mat N D) (Y : Mat N O) (W1 : Mat D H) (W2 : Mat H O) :
    Mat H O :=
  (hReluFor X W1).transpose * gradYPred X Y W1 W2

/-- `grad_h_relu = grad_y_pred.dot(w2.T)`. -/
def gradHRelu {N D H O : Nat} (X : Mat N D) (Y : Mat N O) (W1 : Mat D H) (W2 : Mat H O) :
    Mat N H :=
  gradYPred X Y W1 W2 * W2.transpose

/-- `grad_h = grad_h_relu.copy(); grad_h[h < 0] = 0`. -/
def gradH {N D H O : Nat} (X : Mat N D) (Y : Mat N O) (W1 : Mat D H) (W2 : Mat H O) :
    Mat N H :=
  reluBackward (hFor X W1) (gradHRelu X Y W1 W2)

/-- `grad_w1 = x.T.dot(grad_h)`. -/
def manualGradW1 {N D H O : Nat} (X : Mat N D) (Y : Mat N O) (W1 : Mat D H) (W2 : Mat H O) :
    Mat D H :=
  X.transpose * gradH X Y W1 W2

/-! ### One iteration of the autograd training loop
(`two_layer_net_autograd` / `two_layer_net_custom_function`) -/

/-- Mutable state carried across iterations of the autograd training loop:
the two weights and their gradient accumulators. -/
structure TLState (D H O : Nat) where
  w1 : Mat D H
  w2 : Mat H O
  g1 : Mat D H
  g2 : Mat H O

/-- One iteration of the autograd training loop: `loss.backward()` adds the
fresh gradients into the accumulators, then inside `torch.no_grad()` the
weights are updated by `w -= learning_rate * w.grad` and the accumulators
are reset by `w.grad.zero_()`. -/
def trainStep {N D H O : Nat} (X : Mat N D) (Y : Mat N O) (lr : ℚ)
    (s : TLState D H O) : TLState D H O :=
  let g1 := s.g1 + autoGradW1 X Y s.w1 s.w2
  let g2 := s.g2 + autoGradW2 X Y s.w1 s.w2
  { w1 := s.w1 - lr • g1
    w2 := s.w2 - lr • g2
    g1 := 0
    g2 := 0 }

/-! ### The update step as a no-tracking scope -/

/-- Modelled from the spec: the training-loop state together with the list
of operation nodes recorded so far (the library's graph arena).  The
`torch.no_grad()` scope is modelled, as the spec directs, by an explicit
boolean tracking flag passed into each tensor operation. -/
structure RecState (D H O : Nat) where
  w1 : Mat D H
  w2 : Mat H O
  g1 : Mat D H
  g2 : Mat H O
  nodes : List String

/-- Modelled from the spec: executing one tensor operation records an
operation node into the graph exactly when the tracking flag is on. -/
def recordOp (track : Bool) (name : String) (nodes : List String) : List String :=
  if track then name :: nodes else nodes

/-- The parameter update of `two_layer_net_autograd`, run inside
`torch.no_grad()`: both in-place subtractions `w1 -= lr * w1.grad` and
`w2 -= lr * w2.grad` execute with the tracking flag off. -/
def noGradUpdate {D H O : Nat} (lr : ℚ) (s : RecState D H O) : RecState D H O :=
  { w1 := s.w1 - lr • s.g1
    w2 := s.w2 - lr • s.g2
    g1 := s.g1
    g2 := s.g2
    nodes := recordOp false "sub_w2" (recordOp false "sub_w1" s.nodes) }

/-! ## A tensor consumed by two independent downstream operations -/

/-- Two leaf tensors `a`, `b` for the two-consumer accumulation graph. -/
inductive AVar : Type
  | a | b
deriving DecidableEq

/-- Shapes for the two-consumer graph: `a : r×c`, `b : c×d`; both tracked. -/
def aSig (r c d : Nat) : Sig AVar where
  rows := fun v => match v with | .a => r | .b => c
  cols := fun v => match v with | .a => c | .b => d
  rg := fun _ => true

/-- Leaf values for the two-consumer graph. -/
def aEnv {r c d : Nat} (A : Mat r c) (B : Mat c d) : Env (aSig r c d) :=
  fun v => match v with | .a => A | .b => B

/-- First consumer of `a`: the scalar `sum(a^2)`. -/
def aPath1 (r c d : Nat) : Expr (aSig r c d) 1 1 := .sumAll (.pow2 (.leaf AVar.a))

/-- Second, independent consumer of `a`: the scalar `sum(a.mm(b))`. -/
def aPath2 (r c d : Nat) : Expr (aSig r c d) 1 1 := .sumAll (.mm (.leaf AVar.a) (.leaf AVar.b))

/-- The combined graph in which the single tensor `a` feeds both
consumers: `sum(a^2) + sum(a.mm(b))`. -/
def aBoth (r c d : Nat) : Expr (aSig r c d) 1 1 := .addE (aPath1 r c d) (aPath2 r c d)

/-! ## DynamicNet: weight sharing vs static unrolling -/

/-- `torch.nn.Linear` as a graph fragment: `input.mm(weight.t()) + bias`,
with the bias broadcast over rows. -/
def linE {ι : Type} {sg : Sig ι} {n f g : Nat} (a : Expr sg n f) (w : Expr sg g f)
    (b : Expr sg 1 g) : Expr sg n g :=
  .addRow (.mm a (.transposeE w)) b

/-- Leaf tensors of `DynamicNet`: input, target, and the weight and bias of
the input, (shared) middle, and output linear layers. -/
inductive DVar : Type
  | x | y | wIn | bIn | wMid | bMid | wOut | bOut
deriving DecidableEq

/-- Shapes of the `DynamicNet` leaves (`torch.nn.Linear` stores its weight
as `out_features × in_features`); parameters are tracked, data is not. -/
def dSig (N D H O : Nat) : Sig DVar where
  rows := fun v => match v with
    | .x => N | .y => N | .wIn => H | .bIn => 1 | .wMid => H | .bMid => 1
    | .wOut => O | .bOut => 1
  cols := fun v => match v with
    | .x => D | .y => O | .wIn => D | .bIn => H | .wMid => H | .bMid => H
    | .wOut => H | .bOut => O
  rg := fun v => match v with
    | .x => false | .y => false | _ => true

/-- The hidden state of `DynamicNet.forward` after the input layer and `k`
applications of the shared middle layer:
`h_relu = self.input_linear(x).clamp(min=0)` followed `k` times by
`h_relu = self.middle_linear(h_relu).clamp(min=0)` — each reuse mentions
the same shared leaves `wMid`, `bMid`. -/
def dMidStack (N D H O : Nat) : Nat → Expr (dSig N D H O) N H
  | 0 => .clamp0 (linE (.leaf DVar.x) (.leaf DVar.wIn) (.leaf DVar.bIn))
  | k + 1 => .clamp0 (linE (dMidStack N D H O k) (.leaf DVar.wMid) (.leaf DVar.bMid))

/-- `y_pred = self.output_linear(h_relu)` for reuse count `k`. -/
def dNet (N D H O k : Nat) : Expr (dSig N D H O) N O :=
  linE (dMidStack N D H O k) (.leaf DVar.wOut) (.leaf DVar.bOut)

/-- The scalar `criterion(y_pred, y)` with `MSELoss(reduction='sum')`:
`sum((y_pred - y)^2)`, for reuse count `k`. -/
def dLossE (N D H O k : Nat) : Expr (dSig N D H O) 1 1 :=
  .sumAll (.pow2 (.sub (dNet N D H O k) (.leaf DVar.y)))

/-- Leaf tensors of the statically-unrolled comparison network: as `DVar`,
but with an independent copy of the middle layer's weight and bias for
every application. -/
inductive UVar : Type
  | x | y | wIn | bIn | wMid (i : Nat) | bMid (i : Nat) | wOut | bOut
deriving DecidableEq

/-- Shapes of the unrolled leaves: every middle copy has the shared shape. -/
def uSig (N D H O : Nat) : Sig UVar where
  rows := fun v => match v with
    | .x => N | .y => N | .wIn => H | .bIn => 1 | .wMid _ => H | .bMid _ => 1
    | .wOut => O | .bOut => 1
  cols := fun v => match v with
    | .x => D | .y => O | .wIn => D | .bIn => H | .wMid _ => H | .bMid _ => H
    | .wOut => H | .bOut => O
  rg := fun v => match v with
    | .x => false | .y => false | _ => true

/-- The unrolled hidden state: the `i`-th application of the middle layer
uses the independent copy `wMid i`, `bMid i`. -/
def uMidStack (N D H O : Nat) : Nat → Expr (uSig N D H O) N H
  | 0 => .clamp0 (linE (.leaf UVar.x) (.leaf UVar.wIn) (.leaf UVar.bIn))
  | k + 1 => .clamp0 (linE (uMidStack N D H O k) (.leaf (UVar.wMid k)) (.leaf (UVar.bMid k)))

/-- The unrolled prediction for reuse count `k`. -/
def uNet (N D H O k : Nat) : Expr (uSig N D H O) N O :=
  linE (uMidStack N D H O k) (.leaf UVar.wOut) (.leaf UVar.bOut)

/-- The unrolled loss for reuse count `k`. -/
def uLossE (N D H O k : Nat) : Expr (uSig N D H O) 1 1 :=
  .sumAll (.pow2 (.sub (uNet N D H O k) (.leaf UVar.y)))

/-- Leaf values for `DynamicNet`. -/
def dEnv {N D H O : Nat} (X : Mat N D) (Y : Mat N O) (WIn : Mat H D) (BIn : Mat 1 H)
    (WMid : Mat H H) (BMid : Mat 1 H) (WOut : Mat O H) (BOut : Mat 1 O) :
    Env (dSig N D H O) := fun v => match v with
  | .x => X | .y => Y | .wIn => WIn | .bIn => BIn | .wMid => WMid | .bMid => BMid
  | .wOut => WOut | .bOut => BOut

/-- Leaf values for the unrolled network: every copy of the middle layer
holds the same shared values. -/
def uEnv {N D H O : Nat} (X : Mat N D) (Y : Mat N O) (WIn : Mat H D) (BIn : Mat 1 H)
    (WMid : Mat H H) (BMid : Mat 1 H) (WOut : Mat O H) (BOut : Mat 1 O) :
    Env (uSig N D H O) := fun v => match v with
  | .x => X | .y => Y | .wIn => WIn | .bIn => BIn | .wMid _ => WMid | .bMid _ => BMid
  | .wOut => WOut | .bOut => BOut

/-! ## Small concrete tensors used as witnesses -/

/-- The 1×1 tensor holding `-1`. -/
def matNegOne : Mat 1 1 := fun _ _ => -1

/-- The 1×1 tensor holding `0`. -/
def matZeroOne : Mat 1 1 := fun _ _ => 0

/-- The 1×1 tensor holding `1`. -/
def matOne : Mat 1 1 := fun _ _ => 1

/-- A 2×2 all-ones tensor. -/
def matTwo : Mat 2 2 := fun _ _ => 1

/-- A scalar graph over the two-layer leaves touching only the untracked
input `x`: `sum(x^2)` with `requires_grad` disabled throughout. -/
def noGraphLoss : Expr (tSig 1 1 1 1) 1 1 := .sumAll (.pow2 (.leaf TVar.x))

/-! ## Helper lemmas -/

/-- The occurrence of the queried leaf itself contributes its whole
incoming gradient. -/
theorem leafContrib_self {ι : Type} [DecidableEq ι] {sg : Sig ι} (v : ι)
    (g : Mat (sg.rows v) (sg.cols v)) : leafContrib v v g = g := by
  unfold leafContrib
  exact dif_pos rfl

/-- An occurrence of a different leaf contributes nothing to the queried
leaf's accumulator. -/
theorem leafContrib_ne {ι : Type} [DecidableEq ι] {sg : Sig ι} {v w : ι}
    (h : w ≠ v) (g : Mat (sg.rows w) (sg.cols w)) : leafContrib v w g = 0 := by
  unfold leafContrib
  exact dif_neg h

/-- The gradient arriving below the loss head, `1 * (2 * (y_pred - y))`
written entrywise, is the matrix `2 • (y_pred - y)` of the manual code. -/
theorem lossHeadGrad {N D H O : Nat} (X : Mat N D) (Y : Mat N O) (W1 : Mat D H)
    (W2 : Mat H O) :
    (fun i j => 2 * ((clampMat (X * W1) * W2) i j - Y i j)) =
      ((2 : ℚ) • (clampMat (X * W1) * W2 - Y) : Mat N O) := by
  ext i j
  simp [Matrix.smul_apply, Matrix.sub_apply, smul_eq_mul]

/-- Under matching environments (every unrolled copy of the middle layer
holding the shared values), the unrolled hidden stack evaluates to the same
matrix as the shared hidden stack, for every reuse count. -/
theorem evalStack {N D H O : Nat} (X : Mat N D) (Y : Mat N O) (WIn : Mat H D)
    (BIn : Mat 1 H) (WMid : Mat H H) (BMid : Mat 1 H) (WOut : Mat O H) (BOut : Mat 1 O)
    (k : Nat) :
    eval (uEnv X Y WIn BIn WMid BMid WOut BOut) (uMidStack N D H O k) =
      eval (dEnv X Y WIn BIn WMid BMid WOut BOut) (dMidStack N D H O k) := by
  induction k with
  | zero => rfl
  | succ k ih => simp [uMidStack, dMidStack, linE, eval, ih, uEnv, dEnv]

/-! ## The claims -/

/-- Claim C1: for the two-layer network `y_pred = relu(x·w1)·w2` with loss
`sum((y_pred - y)^2)`, after backward traversal of the scalar loss the
gradients autograd stores in `w1.grad` and `w2.grad` equal, for every
choice of `x`, `y`, `w1`, `w2`, the closed-form chain-rule gradients of
the manual backward-pass code: `grad_w2 = h_relu^T·(2(y_pred - y))` and
`grad_w1 = x^T·grad_h` with `grad_h` zeroed where `h < 0`. -/
theorem autograd_matches_manual {N D H O : Nat} (X : Mat N D) (Y : Mat N O)
    (W1 : Mat D H) (W2 : Mat H O) :
    autoGradW1 X Y W1 W2 = manualGradW1 X Y W1 W2 ∧
    autoGradW2 X Y W1 W2 = manualGradW2 X Y W1 W2 := by
  constructor
  · unfold autoGradW1 manualGradW1 tLoss tNet gradH gradHRelu
    simp [pullback, eval, tEnv, tSig, leafContrib_self, leafContrib_ne, onesMat,
      gradYPred, hReluFor, hFor, yPredFor, clampMat, reluBackward]
    rw [lossHeadGrad X Y W1 W2, Matrix.smul_mul]
  · unfold autoGradW2 manualGradW2 tLoss tNet
    simp [pullback, eval, tEnv, tSig, leafContrib_self, leafContrib_ne, onesMat,
      gradYPred, hReluFor, hFor, yPredFor, clampMat]
    rw [lossHeadGrad X Y W1 W2]
    rw [Matrix.mul_smul]

/-- Claim C2: the backward function of the clamp-to-nonnegative (ReLU)
operator (`MyReLU.backward`) returns, for every input tensor and every
output gradient, a gradient that is zero at the entries where the forward
input was strictly negative and the incoming output gradient unchanged at
every other entry (entries exactly equal to zero pass the gradient
through). -/
theorem myReLU_backward_mask {r c : Nat} (x g : Mat r c) (i : Fin r) (j : Fin c) :
    (x i j < 0 → reluBackward x g i j = 0) ∧
    (¬x i j < 0 → reluBackward x g i j = g i j) := by
  refine ⟨fun h => if_pos h, fun h => if_neg h⟩

/-- Witness for C2: at a strictly negative input entry the gradient is
zeroed; at an input entry equal to zero it passes through. -/
theorem myReLU_backward_mask_witness :
    reluBackward matNegOne matOne 0 0 = 0 ∧
    reluBackward matZeroOne matOne 0 0 = matOne 0 0 := by
  constructor
  · exact (myReLU_backward_mask matNegOne matOne 0 0).1 (by norm_num [matNegOne])
  · exact (myReLU_backward_mask matZeroOne matOne 0 0).2 (by norm_num [matZeroOne])

/-- Counterexample to claim C3 as stated: `MyReLU.backward` does not zero
the gradient at entries whose forward input is exactly zero — at the 1×1
input holding `0` with output gradient `1` it returns `1`, not `0`. -/
theorem clamp_boundary_counterexample :
    ¬ ∀ (r c : Nat) (x g : Mat r c) (i : Fin r) (j : Fin c),
        x i j = 0 → reluBackward x g i j = 0 := by
  intro hall
  have h := hall 1 1 matZeroOne matOne 0 0 rfl
  norm_num [reluBackward, matZeroOne, matOne] at h

/-- Claim C3, amended: at entries whose forward input is exactly zero,
`MyReLU.backward` passes the incoming output gradient through unchanged
(only strictly negative entries are zeroed). -/
theorem clamp_boundary_pass {r c : Nat} (x g : Mat r c) (i : Fin r) (j : Fin c)
    (h : x i j = 0) : reluBackward x g i j = g i j := by
  unfold reluBackward
  rw [h]
  norm_num

/-- Witness for the amended C3: the boundary entry passes the gradient
through. -/
theorem clamp_boundary_pass_witness :
    reluBackward matZeroOne matOne 0 0 = matOne 0 0 :=
  clamp_boundary_pass matZeroOne matOne 0 0 rfl

/-- Claim C4: gradient accumulation is additive — for the tensor `a`
consumed by the two independent downstream consumers `sum(a^2)` and
`sum(a.mm(b))`, the gradient the backward traversal accumulates into `a`
on the combined graph equals the sum of the two per-path gradients, namely
`2•a + ones·bᵀ`. -/
theorem shared_tensor_grad_accumulates {r c d : Nat} (A : Mat r c) (B : Mat c d) :
    pullback (aEnv A B) AVar.a (aBoth r c d) (onesMat 1 1) =
      pullback (aEnv A B) AVar.a (aPath1 r c d) (onesMat 1 1) +
        pullback (aEnv A B) AVar.a (aPath2 r c d) (onesMat 1 1) ∧
    pullback (aEnv A B) AVar.a (aBoth r c d) (onesMat 1 1) =
      (2 : ℚ) • A + onesMat r d * B.transpose := by
  constructor
  · rfl
  · unfold aBoth aPath1 aPath2
    simp [pullback, eval, aEnv, aSig, leafContrib_self, leafContrib_ne, onesMat]
    rfl

/-- Claim C5: for every reuse count `k ≤ 3`, the gradient that a forward
pass of `DynamicNet` applying the shared middle layer `k` times followed
by backward traversal accumulates into the shared weight equals the total
gradient (the sum over the `k` copies) that the statically-unrolled
network with `k` independent applications of that layer, sharing the same
weight values, produces. -/
theorem dynamicNet_shared_grad {N D H O : Nat} (X : Mat N D) (Y : Mat N O)
    (WIn : Mat H D) (BIn : Mat 1 H) (WMid : Mat H H) (BMid : Mat 1 H) (WOut : Mat O H)
    (BOut : Mat 1 O) (k : Nat) (hk : k ≤ 3) :
    pullback (dEnv X Y WIn BIn WMid BMid WOut BOut) DVar.wMid (dLossE N D H O k)
        (onesMat 1 1) =
      ∑ i ∈ Finset.range k,
        pullback (uEnv X Y WIn BIn WMid BMid WOut BOut) (UVar.wMid i) (uLossE N D H O k)
          (onesMat 1 1) := by
  interval_cases k <;>
    simp [dLossE, uLossE, dNet, uNet, dMidStack, uMidStack, linE, pullback, eval, dEnv,
      uEnv, dSig, uSig, leafContrib_self, leafContrib_ne, onesMat, Finset.sum_range_succ]

/-- Witness for C5 at reuse count 2 with 1×1 shapes. -/
theorem dynamicNet_shared_grad_witness :
    2 ≤ 3 ∧
    pullback (dEnv matOne matOne matOne matOne matOne matOne matOne matOne) DVar.wMid
        (dLossE 1 1 1 1 2) (onesMat 1 1) =
      ∑ i ∈ Finset.range 2,
        pullback (uEnv matOne matOne matOne matOne matOne matOne matOne matOne)
          (UVar.wMid i) (uLossE 1 1 1 1 2) (onesMat 1 1) :=
  ⟨by norm_num,
    dynamicNet_shared_grad matOne matOne matOne matOne matOne matOne matOne matOne 2
      (by norm_num)⟩

/-- Claim C6: after each parameter update of the training loop, both
weights' gradient accumulators are reset to exactly zero before the next
forward pass, so the gradient entering the next iteration's update is
exactly the fresh gradient of the new weights, with no carry-over. -/
theorem grads_zeroed_after_step {N D H O : Nat} (X : Mat N D) (Y : Mat N O) (lr : ℚ)
    (s : TLState D H O) :
    (trainStep X Y lr s).g1 = 0 ∧ (trainStep X Y lr s).g2 = 0 ∧
    (trainStep X Y lr s).g1 +
        autoGradW1 X Y (trainStep X Y lr s).w1 (trainStep X Y lr s).w2 =
      autoGradW1 X Y (trainStep X Y lr s).w1 (trainStep X Y lr s).w2 ∧
    (trainStep X Y lr s).g2 +
        autoGradW2 X Y (trainStep X Y lr s).w1 (trainStep X Y lr s).w2 =
      autoGradW2 X Y (trainStep X Y lr s).w1 (trainStep X Y lr s).w2 := by
  refine ⟨rfl, rfl, ?_, ?_⟩ <;> simp [trainStep]

/-- Claim C7: the parameter update runs in a no-tracking scope — it
mutates only the weight values (`w -= lr * w.grad`), records no operation
node, and leaves the graph state and the gradient accumulators unchanged,
so the update itself is never differentiated. -/
theorem update_no_tracking {D H O : Nat} (lr : ℚ) (s : RecState D H O) :
    (noGradUpdate lr s).nodes = s.nodes ∧
    (noGradUpdate lr s).w1 = s.w1 - lr • s.g1 ∧
    (noGradUpdate lr s).w2 = s.w2 - lr • s.g2 ∧
    (noGradUpdate lr s).g1 = s.g1 ∧ (noGradUpdate lr s).g2 = s.g2 := by
  refine ⟨?_, rfl, rfl, rfl, rfl⟩
  simp [noGradUpdate, recordOp]

/-- Claim C8: backward traversal on a non-scalar root, or on a root with
no recorded graph (gradient tracking disabled throughout), is rejected
with an explicit, immediate error — the two failures distinguished — and
succeeds exactly when the root is a scalar with a recorded graph. -/
theorem backward_validation {ι : Type} [DecidableEq ι] {sg : Sig ι} (env : Env sg)
    {r c : Nat} (e : Expr sg r c) :
    (¬(r = 1 ∧ c = 1) →
      backwardE env e = .error ("grad can be implicitly created only for scalar outputs")) ∧
    (r = 1 ∧ c = 1 → tracksGrad e = false →
      backwardE env e = .error ("backward on a tensor that does not require grad")) ∧
    (r = 1 ∧ c = 1 → tracksGrad e = true → (backwardE env e).isOk = true) := by
  refine ⟨fun h => ?_, fun h1 h2 => ?_, fun h1 h2 => ?_⟩
  · simp [backwardE, h]
  · simp [backwardE, h1, h2]
  · simp [backwardE, h1, h2, Except.isOk, Except.toBool]

/-- Witness for C8: a 2×2 (non-scalar) prediction is rejected, a scalar
loss over untracked leaves is rejected with the other error, and the
tracked scalar loss is accepted. -/
theorem backward_validation_witness :
    backwardE (tEnv matTwo matTwo matTwo matTwo) (tNet 2 2 2 2) =
        .error ("grad can be implicitly created only for scalar outputs") ∧
    backwardE (tEnv matOne matOne matOne matOne) noGraphLoss =
        .error ("backward on a tensor that does not require grad") ∧
    (backwardE (tEnv matOne matOne matOne matOne) (tLoss 1 1 1 1)).isOk = true := by
  refine ⟨?_, ?_, ?_⟩
  · exact (backward_validation (tEnv matTwo matTwo matTwo matTwo) (tNet 2 2 2 2)).1
      (by norm_num)
  · exact (backward_validation (tEnv matOne matOne matOne matOne) noGraphLoss).2.1
      (by norm_num) (by rfl)
  · exact (backward_validation (tEnv matOne matOne matOne matOne) (tLoss 1 1 1 1)).2.2
      (by norm_num) (by rfl)

/-- Claim C10: the reported loss `sum((y_pred - y)^2)` is non-negative for
every input, target, and weights, being a sum of squared differences. -/
theorem loss_nonneg {N D H O : Nat} (X : Mat N D) (Y : Mat N O) (W1 : Mat D H)
    (W2 : Mat H O) : 0 ≤ lossVal X Y W1 W2 := by
  unfold lossVal
  refine Finset.sum_nonneg fun i _ => Finset.sum_nonneg fun j _ => ?_
  positivity

end AD
